import Mathlib

/-!
# Verification of the `SiteMapCollector` bounded sitemap traversal

Shallow embedding of `Sitemap_collector.py` (class `SiteMapCollector`):
a recursive sitemap crawler that reads `{base_site}/robots.txt`, extracts
`Sitemap:` entry points, and recursively fetches sitemap documents whose
links match the pattern `\.xml$`, under a global visit budget
`max_sitemaps` tracked by the mutable counter `sitemap_count`.

External collaborators are modelled as an environment (`Site`):
* the HTTP boundary (`requests.get` wrapped by `_request_content`) is a
  partial function from URLs to content — `none` models a request
  exception / non-2xx status, which `_request_content` converts to `""`;
* the XML-parsing boundary (`BeautifulSoup(...).find_all("loc")` in
  `_extract_links`) is abstracted as the ordered list of `<loc>` text
  values of the document at a URL (`Site.pages`); an empty body yields the
  empty list, so a failed fetch degrades to "no links".

The Python string operations used by `_search_sitemaps`
(`str.splitlines`, `str.startswith`, `str.split(sep)`, `str.strip`) and
the regex test `re.search(r"\.xml$", link)` of `_parse_sitemap` are
embedded as structurally recursive functions on `List Char` below, so
every concrete run evaluates inside the kernel.

`list index out of range` is the `IndexError` raised by
`line.split(": ")[1]` when a `Sitemap:`-prefixed robots line does not
contain the delimiter `": "`; it is the one uncaught exception of the
traversal and is modelled with `Except`.
-/

/-- Decides whether the first character list is a prefix of the second
(the comparison underlying Python's `str.startswith`). -/
def isPrefixOfChars : List Char → List Char → Bool
  | [], _ => true
  | _ :: _, [] => false
  | p :: ps, c :: cs => p == c && isPrefixOfChars ps cs

/-- Splitter behind `pySplit`: scans the input left to right, cutting at
each (non-overlapping) occurrence of the non-empty separator `sep`, as
Python's `str.split(sep)` does. `acc` holds the current piece reversed;
`fuel` is the length of the remaining input, so the `0` arm with a
non-empty rest is never reached. -/
def splitCharsAux (sep : List Char) : Nat → List Char → List Char → List (List Char)
  | _, acc, [] => [acc.reverse]
  | 0, acc, rest => [acc.reverse ++ rest]
  | fuel + 1, acc, c :: cs =>
    if isPrefixOfChars sep (c :: cs) then
      acc.reverse :: splitCharsAux sep fuel [] (List.drop (sep.length - 1) cs)
    else
      splitCharsAux sep fuel (c :: acc) cs

/-- Python `s.split(sep)` for a non-empty separator: splits `s` at every
occurrence of `sep`, keeping empty pieces. (Python raises on an empty
separator; the traversal only ever splits on `": "` and `"\n"`.) -/
def pySplit (s sep : String) : List String :=
  if sep.data.isEmpty then [s]
  else (splitCharsAux sep.data s.data.length [] s.data).map String.mk

/-- Python `s.startswith(pre)`. -/
def pyStartsWith (s pre : String) : Bool :=
  isPrefixOfChars pre.data s.data

/-- Python `s.endswith(suf)` (used to express the regex `\.xml$`). -/
def pyEndsWith (s suf : String) : Bool :=
  isPrefixOfChars suf.data.reverse s.data.reverse

/-- The characters Python `str.strip()` removes: exactly the code points
CPython treats as whitespace (`Py_UNICODE_ISSPACE`) — the ASCII
whitespace `\t \n \v \f \r \x1c \x1d \x1e \x1f` and space,
next line `\x85`, no-break space `\xa0`, Ogham space mark `\u1680`,
the en-quad … hair-space range `\u2000`–`\u200a`, line separator
`\u2028`, paragraph separator `\u2029`, narrow no-break space
`\u202f`, medium mathematical space `\u205f`, and ideographic space
`\u3000`. -/
def pyIsSpace (c : Char) : Bool :=
  c == ' ' || c == '\t' || c == '\n' || c == '\x0b' || c == '\x0c' ||
  c == '\r' || c == '\x1c' || c == '\x1d' || c == '\x1e' || c == '\x1f' ||
  c == '\x85' || c == '\xa0' || c == '\u1680' ||
  ('\u2000' ≤ c && c ≤ '\u200a') ||
  c == '\u2028' || c == '\u2029' || c == '\u202f' || c == '\u205f' ||
  c == '\u3000'

/-- Python `s.strip()`: removes leading and trailing whitespace. -/
def pyStrip (s : String) : String :=
  String.mk (((s.data.dropWhile pyIsSpace).reverse.dropWhile
    pyIsSpace).reverse)

/-- The characters at which Python `str.splitlines()` breaks a line,
besides the `"\r\n"` pair handled separately: `\n`, `\r`, `\v`
(`\x0b`), `\f` (`\x0c`), the file/group/record separators
`\x1c`–`\x1e`, next line `\x85`, line separator `\u2028` and
paragraph separator `\u2029`. -/
def isLineBreakChar (c : Char) : Bool :=
  c == '\n' || c == '\r' || c == '\x0b' || c == '\x0c' ||
  c == '\x1c' || c == '\x1d' || c == '\x1e' || c == '\x85' ||
  c == '\u2028' || c == '\u2029'

/-- Worker of `splitLines`: `acc` holds the current line reversed. Each
line-boundary character ends a line (a `"\r\n"` pair counts as a single
boundary); the text after the last boundary forms a final line only when
it is non-empty, so no trailing empty line is produced. -/
def splitLinesGo : List Char → List Char → List (List Char)
  | acc, [] => [acc.reverse]
  | acc, '\r' :: '\n' :: cs =>
    acc.reverse :: (match cs with
      | [] => []
      | _ :: _ => splitLinesGo [] cs)
  | acc, c :: cs =>
    if isLineBreakChar c then
      acc.reverse :: (match cs with
        | [] => []
        | _ :: _ => splitLinesGo [] cs)
    else
      splitLinesGo (c :: acc) cs

/-- Python `robots_content.splitlines()`: breaks at every line-boundary
character (see `isLineBreakChar`, with `"\r\n"` counting as a single
boundary), keeps interior empty lines, produces no trailing empty line,
and maps `""` to `[]`. -/
def splitLines (s : String) : List String :=
  match s.data with
  | [] => []
  | c :: cs => (splitLinesGo [] (c :: cs)).map String.mk

/-- The test `re.search(r"\.xml$", link)` of `_parse_sitemap`, line 73.
In Python, `$` (without `re.MULTILINE`) matches at the end of the string
and also just before a single final newline, so the pattern accepts both
`"….xml"` and `"….xml\n"`. -/
def matchesSitemapPattern (l : String) : Bool :=
  pyEndsWith l ".xml" || pyEndsWith l ".xml\n"

/-- Environment of one traversal: the network and XML-parsing
collaborators of `SiteMapCollector`.
* `robots` — body of `{base_site}/robots.txt`; `none` models a failed
  fetch (which `_request_content` turns into `""`).
* `pages` — for a sitemap URL, the ordered `<loc>` text values of the
  document there (`_extract_links` of its body); `none` models a failed
  fetch, which degrades to no links. -/
structure Site where
  robots : Option String
  pages : String → Option (List String)

/-- Mutable state of `SiteMapCollector` during one traversal, plus two
instrumentation logs that record the operations performed:
* `collected` — `self.collected_data`, an insertion-ordered mapping from
  sitemap URL to its extracted link list (Python dict semantics);
* `count` — `self.sitemap_count`;
* `visited` — log of every URL passed to `_parse_sitemap` (each such call
  is preceded by `sitemap_count += 1`), in call order;
* `fetched` — log of every URL actually fetched by `_request_content`
  from inside `_parse_sitemap` (the robots fetch is not logged), in fetch
  order. -/
structure CrawlState where
  collected : List (String × List String)
  count : Nat
  visited : List String
  fetched : List String
deriving Repr, DecidableEq

/-- State at construction time: `collected_data = {}`, `sitemap_count = 0`. -/
def initState : CrawlState := ⟨[], 0, [], []⟩

/-- Content of a sitemap document as seen by `_parse_sitemap`:
`_extract_links(self._request_content(url))`. A failed request yields
`""`, whose soup has no `loc` elements, hence `[]`. -/
def requestLocs (site : Site) (url : String) : List String :=
  match site.pages url with
  | some locs => locs
  | none => []

/-- Python dict assignment `self.collected_data[sitemap_url] = v`: if the
key is present its value is replaced in place (insertion position kept);
otherwise the pair is appended at the end. -/
def recordEntry (m : List (String × List String)) (k : String)
    (v : List String) : List (String × List String) :=
  if m.any (fun p => p.1 == k) then
    m.map (fun p => if p.1 == k then (k, v) else p)
  else
    m ++ [(k, v)]

/-- `SiteMapCollector._parse_sitemap(sitemap_url)` (lines 59–77):
return immediately if `sitemap_count >= max_sitemaps`; otherwise fetch
the document, extract its links, loop over them recursing (after
`sitemap_count += 1`) into every link that matches `\.xml$` while
`sitemap_count < max_sitemaps`, and only then record
`collected_data[sitemap_url] = found_urls`.

`fuel` bounds the recursion depth so the function is structurally
recursive; `parseSitemap_fuel_congr` below shows any `fuel` with
`maxS ≤ fuel + st.count` computes the same result, so the top-level
choice `fuel = maxS` is exact. -/
def parseSitemap (site : Site) (maxS : Nat) : Nat → String → CrawlState → CrawlState
  | 0, _, st => st
  | fuel + 1, url, st =>
    if maxS ≤ st.count then st
    else
      let links := requestLocs site url
      let st1 : CrawlState := { st with fetched := st.fetched ++ [url] }
      let st2 := links.foldl
        (fun s l =>
          if matchesSitemapPattern l = true ∧ s.count < maxS then
            parseSitemap site maxS fuel l
              { s with count := s.count + 1, visited := s.visited ++ [l] }
          else s) st1
      { st2 with collected := recordEntry st2.collected url links }

/-- One iteration of the `for link in found_urls` loop of
`_parse_sitemap`: recurse into `l` iff it matches `\.xml$` and the
counter is still below the budget. -/
def visitStep (site : Site) (maxS fuel : Nat) (s : CrawlState) (l : String) :
    CrawlState :=
  if matchesSitemapPattern l = true ∧ s.count < maxS then
    parseSitemap site maxS fuel l
      { s with count := s.count + 1, visited := s.visited ++ [l] }
  else s

/-- Unfolding of `parseSitemap` at positive fuel, with the loop body
named `visitStep`. -/
theorem parseSitemap_succ (site : Site) (maxS fuel : Nat) (url : String)
    (st : CrawlState) :
    parseSitemap site maxS (fuel + 1) url st =
      if maxS ≤ st.count then st
      else
        { (requestLocs site url).foldl (visitStep site maxS fuel)
            { st with fetched := st.fetched ++ [url] } with
          collected := recordEntry
            ((requestLocs site url).foldl (visitStep site maxS fuel)
              { st with fetched := st.fetched ++ [url] }).collected
            url (requestLocs site url) } := rfl

/-- Unfolding of `parseSitemap` at zero fuel. -/
theorem parseSitemap_zero (site : Site) (maxS : Nat) (url : String)
    (st : CrawlState) :
    parseSitemap site maxS 0 url st = st := rfl

/-- One iteration of the robots-line loop of `_search_sitemaps`
(lines 96–102): on a line starting with `Sitemap:`, take
`line.split(": ")[1].strip()` — raising `IndexError` when the line has no
`": "` — and, if `sitemap_count < max_sitemaps`, increment the counter
and call `_parse_sitemap` on the link. -/
def processRobotsLine (site : Site) (maxS fuel : Nat) (line : String)
    (st : CrawlState) : Except String CrawlState :=
  if pyStartsWith line "Sitemap:" = true then
    match (pySplit line ": ").get? 1 with
    | none => Except.error "list index out of range"
    | some piece =>
      if st.count < maxS then
        Except.ok (parseSitemap site maxS fuel (pyStrip piece)
          { st with count := st.count + 1,
                    visited := st.visited ++ [pyStrip piece] })
      else
        Except.ok st
  else
    Except.ok st

/-- The `for line in robots_content.splitlines()` loop of
`_search_sitemaps`, threading the collector state; an uncaught
`IndexError` aborts the remaining lines. -/
def processLines (site : Site) (maxS fuel : Nat) :
    List String → CrawlState → Except String CrawlState
  | [], st => Except.ok st
  | line :: rest, st =>
    match processRobotsLine site maxS fuel line st with
    | Except.error e => Except.error e
    | Except.ok st1 => processLines site maxS fuel rest st1

/-- `_search_sitemaps` with an explicit recursion bound for
`_parse_sitemap`. -/
def searchSitemapsFuel (site : Site) (maxS fuel : Nat) :
    Except String CrawlState :=
  processLines site maxS fuel (splitLines ((site.robots).getD "")) initState

/-- `SiteMapCollector._search_sitemaps` (run by `__init__`): fetch the
robots file (failure degrades to `""`), scan its lines and process each
`Sitemap:` entry point in file order. Fuel `maxS` is exact
(`parseSitemap_fuel_congr`). -/
def searchSitemaps (site : Site) (maxS : Nat) : Except String CrawlState :=
  searchSitemapsFuel site maxS maxS

/-- The public contract of the crawler (`traverse(baseAddress, budget)` in
the specification): run the traversal and surface the collected mapping,
or the one uncaught exception. -/
def traverseSite (site : Site) (maxS : Nat) :
    Except String (List (String × List String)) :=
  (searchSitemaps site maxS).map CrawlState.collected

/-- Fetch log of a completed traversal: every sitemap-document URL passed
to `_request_content` from `_parse_sitemap`, in order (empty when the
traversal aborts with an exception). -/
def fetchLog (site : Site) (maxS : Nat) : List String :=
  match searchSitemaps site maxS with
  | Except.ok st => st.fetched
  | Except.error _ => []

/-- Result mapping of a completed traversal (empty when the traversal
aborts with an exception). -/
def resultMapping (site : Site) (maxS : Nat) : List (String × List String) :=
  match traverseSite site maxS with
  | Except.ok m => m
  | Except.error _ => []

/-- Entry points declared by the robots file: for each line starting with
`Sitemap:` that contains the `": "` delimiter, the stripped second piece
of `line.split(": ")`. -/
def robotsEntries (site : Site) : List String :=
  (splitLines ((site.robots).getD "")).filterMap
    (fun line =>
      if pyStartsWith line "Sitemap:" = true then
        ((pySplit line ": ").get? 1).map pyStrip
      else none)

/-! ## Concrete sites used as test inputs -/

/-- The specification's running example: robots declares `a.xml`, which
declares a nested sitemap `b.xml` (no further links) and a page URL. -/
def exSiteAB : Site where
  robots := some "Sitemap: http://x/a.xml"
  pages := fun u =>
    if u = "http://x/a.xml" then some ["http://x/b.xml", "http://x/p1"]
    else if u = "http://x/b.xml" then some []
    else none

/-- One declared entry point whose document fetch fails. -/
def exSiteFail : Site where
  robots := some "Sitemap: http://x/a.xml"
  pages := fun _ => none

/-- A robots line with the `Sitemap:` prefix but no `": "` delimiter. -/
def exSiteNoDelim : Site where
  robots := some "Sitemap:http://x/a.xml"
  pages := fun _ => none

/-- A cyclic link graph: `a.xml` declares itself. -/
def exSiteCycle : Site where
  robots := some "Sitemap: http://x/a.xml"
  pages := fun u =>
    if u = "http://x/a.xml" then some ["http://x/a.xml"] else none

/-- A declared link carrying a trailing newline: accepted by `\.xml$`
although it does not end with `.xml`. -/
def exSiteNewline : Site where
  robots := some "Sitemap: http://x/a.xml"
  pages := fun u =>
    if u = "http://x/a.xml" then some ["http://x/c.xml\n"] else none

/-- A site whose robots fetch fails. -/
def exSiteNoRobots : Site where
  robots := none
  pages := fun _ => none

/-! ## Preservation lemmas -/

/-- A predicate preserved by every step of a left fold is preserved by the
fold. -/
theorem foldl_preserve {σ α : Type} {P : σ → Prop} (f : σ → α → σ)
    (hf : ∀ s a, P s → P (f s a)) :
    ∀ (ls : List α) (s : σ), P s → P (ls.foldl f s)
  | [], _, h => h
  | a :: ls, s, h => foldl_preserve f hf ls (f s a) (hf s a h)

/-- Generic preservation through `parseSitemap`: a state predicate that
survives logging a fetch, bumping the counter for a matching link below
budget, and any rewrite of `collected`, survives the whole recursion. -/
theorem parseSitemap_preserve (site : Site) (maxS : Nat) (P : CrawlState → Prop)
    (hfetch : ∀ st url, P st → P { st with fetched := st.fetched ++ [url] })
    (hbump : ∀ st l, P st → matchesSitemapPattern l = true → st.count < maxS →
      P { st with count := st.count + 1, visited := st.visited ++ [l] })
    (hcoll : ∀ st m, P st → P { st with collected := m }) :
    ∀ fuel url st, P st → P (parseSitemap site maxS fuel url st) := by
  intro fuel
  induction fuel with
  | zero => intro url st h; exact h
  | succ f ih =>
    intro url st h
    rw [parseSitemap_succ]
    by_cases hg : maxS ≤ st.count
    · rw [if_pos hg]; exact h
    · rw [if_neg hg]
      refine hcoll _ _ ?_
      refine foldl_preserve _ ?_ _ _ (hfetch st url h)
      intro s l hs
      unfold visitStep
      by_cases hc : matchesSitemapPattern l = true ∧ s.count < maxS
      · rw [if_pos hc]
        exact ih l _ (hbump s l hs hc.1 hc.2)
      · rw [if_neg hc]; exact hs

/-- The counter never decreases through `_parse_sitemap`. -/
theorem parseSitemap_count_mono (site : Site) (maxS fuel : Nat) (url : String)
    (st : CrawlState) : st.count ≤ (parseSitemap site maxS fuel url st).count := by
  refine parseSitemap_preserve site maxS (fun s => st.count ≤ s.count)
    ?_ ?_ ?_ fuel url st (Nat.le_refl _)
  · intro s u h; exact h
  · intro s l h _ _; exact Nat.le_trans h (Nat.le_succ _)
  · intro s m h; exact h

/-- The visit log only grows through `_parse_sitemap`. -/
theorem parseSitemap_visited_mono (site : Site) (maxS fuel : Nat) (url : String)
    (st : CrawlState) {u : String} (hu : u ∈ st.visited) :
    u ∈ (parseSitemap site maxS fuel url st).visited := by
  refine parseSitemap_preserve site maxS (fun s => u ∈ s.visited)
    ?_ ?_ ?_ fuel url st hu
  · intro s v h; exact h
  · intro s l h _ _
    exact List.mem_append_left _ h
  · intro s m h; exact h

/-- Budget invariant carried through the traversal: the number of
performed sitemap fetches stays below the counter, the counter stays
within the budget, and (hence) strictly fewer than `maxS` fetches have
happened. -/
def FetchInv (maxS : Nat) (st : CrawlState) : Prop :=
  st.fetched.length ≤ st.count ∧ st.count ≤ maxS ∧ st.fetched.length + 1 ≤ maxS

/-- `_parse_sitemap` establishes `FetchInv` whenever it is entered with
strictly fewer fetches than counter increments — which is how every call
site invokes it, since the caller increments `sitemap_count` first. -/
theorem parseSitemap_fetchInv (site : Site) (maxS : Nat) :
    ∀ fuel url st, st.fetched.length < st.count → st.count ≤ maxS →
      FetchInv maxS (parseSitemap site maxS fuel url st) := by
  intro fuel
  induction fuel with
  | zero =>
    intro url st h1 h2
    exact ⟨Nat.le_of_lt h1, h2, Nat.succ_le_of_lt (Nat.lt_of_lt_of_le h1 h2)⟩
  | succ f ih =>
    intro url st h1 h2
    rw [parseSitemap_succ]
    by_cases hg : maxS ≤ st.count
    · rw [if_pos hg]
      exact ⟨Nat.le_of_lt h1, h2, Nat.succ_le_of_lt (Nat.lt_of_lt_of_le h1 h2)⟩
    · rw [if_neg hg]
      have hlt : st.count < maxS := Nat.lt_of_not_le hg
      have hst1 : FetchInv maxS { st with fetched := st.fetched ++ [url] } := by
        refine ⟨?_, Nat.le_of_lt hlt, ?_⟩ <;>
          simp only [List.length_append, List.length_cons, List.length_nil] <;> omega
      have hfold : FetchInv maxS ((requestLocs site url).foldl
          (visitStep site maxS f) { st with fetched := st.fetched ++ [url] }) := by
        refine foldl_preserve _ ?_ _ _ hst1
        intro s l hs
        unfold visitStep
        by_cases hc : matchesSitemapPattern l = true ∧ s.count < maxS
        · rw [if_pos hc]
          exact ih l _ (Nat.lt_succ_of_le hs.1) hc.2
        · rw [if_neg hc]; exact hs
      exact hfold

/-- Entries put into `recordEntry` come from the old mapping or are the
new pair. -/
theorem recordEntry_mem {m : List (String × List String)} {k : String}
    {v : List String} {p : String × List String}
    (hp : p ∈ recordEntry m k v) : p ∈ m ∨ p = (k, v) := by
  unfold recordEntry at hp
  by_cases h : m.any (fun q => q.1 == k)
  · rw [if_pos h] at hp
    obtain ⟨q, hq, hq2⟩ := List.mem_map.mp hp
    by_cases hqk : q.1 == k
    · rw [if_pos hqk] at hq2; right; exact hq2.symm
    · rw [if_neg hqk] at hq2; left; rw [← hq2]; exact hq
  · rw [if_neg h] at hp
    rcases List.mem_append.mp hp with h1 | h2
    · left; exact h1
    · right; exact List.mem_singleton.mp h2

/-- When the key is not yet present, `recordEntry` appends the pair at
the end of the mapping. -/
theorem recordEntry_not_mem {m : List (String × List String)} {k : String}
    (v : List String) (hk : k ∉ m.map Prod.fst) :
    recordEntry m k v = m ++ [(k, v)] := by
  unfold recordEntry
  rw [if_neg]
  intro hany
  obtain ⟨q, hq, hqk⟩ := List.any_eq_true.mp hany
  exact hk (List.mem_map.mpr ⟨q, hq, (eq_of_beq hqk)⟩)

/-- Soundness of the collected mapping: each stored value is exactly the
link list extracted from the document at its key. -/
def EntriesOk (site : Site) (st : CrawlState) : Prop :=
  ∀ p ∈ st.collected, p.2 = requestLocs site p.1

/-- `_parse_sitemap` preserves `EntriesOk`: the only write to the mapping
stores, under the fetched URL, the unmodified extracted link list. -/
theorem parseSitemap_entriesOk (site : Site) (maxS : Nat) :
    ∀ fuel url st, EntriesOk site st →
      EntriesOk site (parseSitemap site maxS fuel url st) := by
  intro fuel
  induction fuel with
  | zero => intro url st h; exact h
  | succ f ih =>
    intro url st h
    rw [parseSitemap_succ]
    by_cases hg : maxS ≤ st.count
    · rw [if_pos hg]; exact h
    · rw [if_neg hg]
      have hfold : EntriesOk site ((requestLocs site url).foldl
          (visitStep site maxS f) { st with fetched := st.fetched ++ [url] }) := by
        refine foldl_preserve _ ?_ _ _ h
        intro s l hs
        unfold visitStep
        by_cases hc : matchesSitemapPattern l = true ∧ s.count < maxS
        · rw [if_pos hc]; exact ih l _ hs
        · rw [if_neg hc]; exact hs
      intro p hp
      rcases recordEntry_mem hp with h1 | h2
      · exact hfold p h1
      · rw [h2]

/-- Fuel adequacy of the embedding: whenever the remaining fuel covers
the remaining budget (`maxS ≤ fuel + st.count`), the result of
`parseSitemap` does not depend on the fuel. This is the formal content of
termination of the source recursion: every recursive descent happens
after `sitemap_count` was incremented, so the recursion depth is bounded
by the remaining budget. -/
theorem parseSitemap_fuel_congr (site : Site) (maxS : Nat) :
    ∀ f1 f2 url st, maxS ≤ f1 + st.count → maxS ≤ f2 + st.count →
      parseSitemap site maxS f1 url st = parseSitemap site maxS f2 url st := by
  intro f1
  induction f1 with
  | zero =>
    intro f2 url st h1 h2
    rw [parseSitemap_zero]
    cases f2 with
    | zero => rfl
    | succ g => rw [parseSitemap_succ, if_pos (by omega)]
  | succ h ih =>
    intro f2 url st h1 h2
    cases f2 with
    | zero =>
      rw [parseSitemap_zero, parseSitemap_succ, if_pos (by omega)]
    | succ g =>
      rw [parseSitemap_succ, parseSitemap_succ]
      by_cases hg : maxS ≤ st.count
      · rw [if_pos hg, if_pos hg]
      · rw [if_neg hg, if_neg hg]
        have key : ∀ (ls : List String) (s : CrawlState),
            maxS ≤ h + s.count + 1 → maxS ≤ g + s.count + 1 →
            ls.foldl (visitStep site maxS h) s = ls.foldl (visitStep site maxS g) s := by
          intro ls
          induction ls with
          | nil => intro s _ _; rfl
          | cons l tl ihl =>
            intro s hs1 hs2
            simp only [List.foldl_cons]
            by_cases hc : matchesSitemapPattern l = true ∧ s.count < maxS
            · have hstep : visitStep site maxS h s l = visitStep site maxS g s l := by
                unfold visitStep
                rw [if_pos hc, if_pos hc]
                exact ih g l _ (show maxS ≤ h + (s.count + 1) by omega)
                  (show maxS ≤ g + (s.count + 1) by omega)
              rw [hstep]
              have hmono : s.count + 1 ≤ (visitStep site maxS g s l).count := by
                unfold visitStep
                rw [if_pos hc]
                exact parseSitemap_count_mono site maxS g l
                  { s with count := s.count + 1, visited := s.visited ++ [l] }
              exact ihl _ (by omega) (by omega)
            · have hstep1 : visitStep site maxS h s l = s := by
                unfold visitStep; rw [if_neg hc]
              have hstep2 : visitStep site maxS g s l = s := by
                unfold visitStep; rw [if_neg hc]
              rw [hstep1, hstep2]
              exact ihl s hs1 hs2
        rw [key (requestLocs site url) { st with fetched := st.fetched ++ [url] }
          (show maxS ≤ h + st.count + 1 by omega)
          (show maxS ≤ g + st.count + 1 by omega)]

/-- `processRobotsLine` on a line without the `Sitemap:` prefix leaves
the state unchanged. -/
theorem processRobotsLine_eq_skip (site : Site) (maxS fuel : Nat)
    {line : String} (st : CrawlState)
    (hs : ¬ pyStartsWith line "Sitemap:" = true) :
    processRobotsLine site maxS fuel line st = Except.ok st := by
  unfold processRobotsLine
  rw [if_neg hs]

/-- `processRobotsLine` on a `Sitemap:` line without the `": "` delimiter
raises the `IndexError`. -/
theorem processRobotsLine_eq_err (site : Site) (maxS fuel : Nat)
    {line : String} (st : CrawlState)
    (hs : pyStartsWith line "Sitemap:" = true)
    (hg : (pySplit line ": ").get? 1 = none) :
    processRobotsLine site maxS fuel line st =
      Except.error "list index out of range" := by
  unfold processRobotsLine
  rw [if_pos hs, hg]

/-- `processRobotsLine` on a well-formed `Sitemap:` line: bump and parse
when below budget, otherwise skip. -/
theorem processRobotsLine_eq_entry (site : Site) (maxS fuel : Nat)
    {line piece : String} (st : CrawlState)
    (hs : pyStartsWith line "Sitemap:" = true)
    (hg : (pySplit line ": ").get? 1 = some piece) :
    processRobotsLine site maxS fuel line st =
      if st.count < maxS then
        Except.ok (parseSitemap site maxS fuel (pyStrip piece)
          { st with count := st.count + 1,
                    visited := st.visited ++ [pyStrip piece] })
      else Except.ok st := by
  unfold processRobotsLine
  rw [if_pos hs, hg]

/-- Generic preservation through one robots line: a predicate preserved
by a fetch log append, a counter bump below budget, and any `collected`
rewrite survives `processRobotsLine` (the robots-loop bump is not guarded
by the `\.xml$` pattern, so the bump hypothesis here takes no pattern
assumption). -/
theorem processRobotsLine_preserve (site : Site) (maxS fuel : Nat)
    (P : CrawlState → Prop)
    (hfetch : ∀ st url, P st → P { st with fetched := st.fetched ++ [url] })
    (hbump : ∀ st l, P st → st.count < maxS →
      P { st with count := st.count + 1, visited := st.visited ++ [l] })
    (hcoll : ∀ st m, P st → P { st with collected := m }) :
    ∀ line st st', processRobotsLine site maxS fuel line st = Except.ok st' →
      P st → P st' := by
  intro line st st' h hP
  by_cases hs : pyStartsWith line "Sitemap:" = true
  · cases hg : (pySplit line ": ").get? 1 with
    | none =>
      rw [processRobotsLine_eq_err site maxS fuel st hs hg] at h
      exact Except.noConfusion h
    | some piece =>
      rw [processRobotsLine_eq_entry site maxS fuel st hs hg] at h
      by_cases hlt : st.count < maxS
      · rw [if_pos hlt] at h
        injection h with h2
        rw [← h2]
        exact parseSitemap_preserve site maxS P hfetch
          (fun s l hsP _ hl => hbump s l hsP hl) hcoll fuel _ _
          (hbump st _ hP hlt)
      · rw [if_neg hlt] at h
        injection h with h2
        rw [← h2]; exact hP
  · rw [processRobotsLine_eq_skip site maxS fuel st hs] at h
    injection h with h2
    rw [← h2]; exact hP

/-- Generic preservation through the whole robots loop. -/
theorem processLines_preserve (site : Site) (maxS fuel : Nat)
    (P : CrawlState → Prop)
    (hfetch : ∀ st url, P st → P { st with fetched := st.fetched ++ [url] })
    (hbump : ∀ st l, P st → st.count < maxS →
      P { st with count := st.count + 1, visited := st.visited ++ [l] })
    (hcoll : ∀ st m, P st → P { st with collected := m }) :
    ∀ L st st', processLines site maxS fuel L st = Except.ok st' →
      P st → P st' := by
  intro L
  induction L with
  | nil =>
    intro st st' h hP
    injection h with h2
    rw [← h2]; exact hP
  | cons line rest ihl =>
    intro st st' h hP
    unfold processLines at h
    cases heq : processRobotsLine site maxS fuel line st with
    | error e => rw [heq] at h; exact Except.noConfusion h
    | ok st1 =>
      rw [heq] at h
      exact ihl st1 st' h
        (processRobotsLine_preserve site maxS fuel P hfetch hbump hcoll line st st1 heq hP)

/-- `FetchInv` is established by one robots line from any state
satisfying it. -/
theorem processRobotsLine_fetchInv (site : Site) (maxS fuel : Nat)
    (line : String) (st st' : CrawlState)
    (h : processRobotsLine site maxS fuel line st = Except.ok st')
    (hP : FetchInv maxS st) : FetchInv maxS st' := by
  by_cases hs : pyStartsWith line "Sitemap:" = true
  · cases hg : (pySplit line ": ").get? 1 with
    | none =>
      rw [processRobotsLine_eq_err site maxS fuel st hs hg] at h
      exact Except.noConfusion h
    | some piece =>
      rw [processRobotsLine_eq_entry site maxS fuel st hs hg] at h
      by_cases hlt : st.count < maxS
      · rw [if_pos hlt] at h
        injection h with h2
        rw [← h2]
        exact parseSitemap_fetchInv site maxS fuel _ _
          (Nat.lt_succ_of_le hP.1) hlt
      · rw [if_neg hlt] at h
        injection h with h2
        rw [← h2]; exact hP
  · rw [processRobotsLine_eq_skip site maxS fuel st hs] at h
    injection h with h2
    rw [← h2]; exact hP

/-- `FetchInv` is carried through the whole robots loop. -/
theorem processLines_fetchInv (site : Site) (maxS fuel : Nat) :
    ∀ L st st', processLines site maxS fuel L st = Except.ok st' →
      FetchInv maxS st → FetchInv maxS st' := by
  intro L
  induction L with
  | nil =>
    intro st st' h hP
    injection h with h2
    rw [← h2]; exact hP
  | cons line rest ihl =>
    intro st st' h hP
    unfold processLines at h
    cases heq : processRobotsLine site maxS fuel line st with
    | error e => rw [heq] at h; exact Except.noConfusion h
    | ok st1 =>
      rw [heq] at h
      exact ihl st1 st' h (processRobotsLine_fetchInv site maxS fuel line st st1 heq hP)

/-- `EntriesOk` is carried through one robots line. -/
theorem processRobotsLine_entriesOk (site : Site) (maxS fuel : Nat)
    (line : String) (st st' : CrawlState)
    (h : processRobotsLine site maxS fuel line st = Except.ok st')
    (hP : EntriesOk site st) : EntriesOk site st' := by
  by_cases hs : pyStartsWith line "Sitemap:" = true
  · cases hg : (pySplit line ": ").get? 1 with
    | none =>
      rw [processRobotsLine_eq_err site maxS fuel st hs hg] at h
      exact Except.noConfusion h
    | some piece =>
      rw [processRobotsLine_eq_entry site maxS fuel st hs hg] at h
      by_cases hlt : st.count < maxS
      · rw [if_pos hlt] at h
        injection h with h2
        rw [← h2]
        exact parseSitemap_entriesOk site maxS fuel _ _ hP
      · rw [if_neg hlt] at h
        injection h with h2
        rw [← h2]; exact hP
  · rw [processRobotsLine_eq_skip site maxS fuel st hs] at h
    injection h with h2
    rw [← h2]; exact hP

/-- `EntriesOk` is carried through the whole robots loop. -/
theorem processLines_entriesOk (site : Site) (maxS fuel : Nat) :
    ∀ L st st', processLines site maxS fuel L st = Except.ok st' →
      EntriesOk site st → EntriesOk site st' := by
  intro L
  induction L with
  | nil =>
    intro st st' h hP
    injection h with h2
    rw [← h2]; exact hP
  | cons line rest ihl =>
    intro st st' h hP
    unfold processLines at h
    cases heq : processRobotsLine site maxS fuel line st with
    | error e => rw [heq] at h; exact Except.noConfusion h
    | ok st1 =>
      rw [heq] at h
      exact ihl st1 st' h (processRobotsLine_entriesOk site maxS fuel line st st1 heq hP)

/-- The link extracted from a well-formed `Sitemap:` line of the robots
file is one of the declared entry points. -/
theorem robotsEntries_mem (site : Site) {line piece : String}
    (hline : line ∈ splitLines ((site.robots).getD ""))
    (hs : pyStartsWith line "Sitemap:" = true)
    (hg : (pySplit line ": ").get? 1 = some piece) :
    pyStrip piece ∈ robotsEntries site := by
  unfold robotsEntries
  refine List.mem_filterMap.mpr ⟨line, hline, ?_⟩
  rw [if_pos hs, hg]
  rfl

/-- Provenance of visits through `_parse_sitemap`: relative to the state
at entry, every new visit is of a link accepted by the `\.xml$` test. -/
theorem parseSitemap_visited_from (site : Site) (maxS fuel : Nat)
    (url : String) (st : CrawlState) :
    ∀ u ∈ (parseSitemap site maxS fuel url st).visited,
      u ∈ st.visited ∨ matchesSitemapPattern u = true := by
  refine parseSitemap_preserve site maxS
    (fun s => ∀ u ∈ s.visited, u ∈ st.visited ∨ matchesSitemapPattern u = true)
    ?_ ?_ ?_ fuel url st (fun u hu => Or.inl hu)
  · intro s v h; exact h
  · intro s l h hl _ u hu
    rcases List.mem_append.mp hu with h1 | h2
    · exact h u h1
    · rw [List.mem_singleton.mp h2]; exact Or.inr hl
  · intro s m h; exact h

/-- Provenance of visits through one robots line: every new visit is of a
declared entry point or of a link accepted by the `\.xml$` test. -/
theorem processRobotsLine_visited_from (site : Site) (maxS fuel : Nat)
    (line : String) (st st' : CrawlState)
    (h : processRobotsLine site maxS fuel line st = Except.ok st')
    (hline : line ∈ splitLines ((site.robots).getD "")) :
    ∀ u ∈ st'.visited,
      u ∈ st.visited ∨ u ∈ robotsEntries site ∨
        matchesSitemapPattern u = true := by
  by_cases hs : pyStartsWith line "Sitemap:" = true
  · cases hg : (pySplit line ": ").get? 1 with
    | none =>
      rw [processRobotsLine_eq_err site maxS fuel st hs hg] at h
      exact Except.noConfusion h
    | some piece =>
      rw [processRobotsLine_eq_entry site maxS fuel st hs hg] at h
      by_cases hlt : st.count < maxS
      · rw [if_pos hlt] at h
        injection h with h2
        rw [← h2]
        intro u hu
        rcases parseSitemap_visited_from site maxS fuel (pyStrip piece)
          { st with count := st.count + 1,
                    visited := st.visited ++ [pyStrip piece] } u hu with h1 | h1
        · rcases List.mem_append.mp h1 with h3 | h3
          · exact Or.inl h3
          · rw [List.mem_singleton.mp h3]
            exact Or.inr (Or.inl (robotsEntries_mem site hline hs hg))
        · exact Or.inr (Or.inr h1)
      · rw [if_neg hlt] at h
        injection h with h2
        rw [← h2]
        exact fun u hu => Or.inl hu
  · rw [processRobotsLine_eq_skip site maxS fuel st hs] at h
    injection h with h2
    rw [← h2]
    exact fun u hu => Or.inl hu

/-- Provenance of visits through the robots loop. -/
theorem processLines_visited_from (site : Site) (maxS fuel : Nat) :
    ∀ L st st', processLines site maxS fuel L st = Except.ok st' →
      (∀ line ∈ L, line ∈ splitLines ((site.robots).getD "")) →
      ∀ u ∈ st'.visited,
        u ∈ st.visited ∨ u ∈ robotsEntries site ∨
          matchesSitemapPattern u = true := by
  intro L
  induction L with
  | nil =>
    intro st st' h _
    injection h with h2
    rw [← h2]
    exact fun u hu => Or.inl hu
  | cons line rest ihl =>
    intro st st' h hsub
    unfold processLines at h
    cases heq : processRobotsLine site maxS fuel line st with
    | error e => rw [heq] at h; exact Except.noConfusion h
    | ok st1 =>
      rw [heq] at h
      intro u hu
      rcases ihl st1 st' h (fun l hl => hsub l (List.mem_cons_of_mem _ hl)) u hu with
        h1 | h1 | h1
      · exact processRobotsLine_visited_from site maxS fuel line st st1 heq
          (hsub line (List.mem_cons_self _ _)) u h1
      · exact Or.inr (Or.inl h1)
      · exact Or.inr (Or.inr h1)

/-- One robots line computes the same result at any two fuels that cover
the whole budget. -/
theorem processRobotsLine_fuel_congr (site : Site) (maxS : Nat) {f1 f2 : Nat}
    (h1 : maxS ≤ f1) (h2 : maxS ≤ f2) (line : String) (st : CrawlState) :
    processRobotsLine site maxS f1 line st =
      processRobotsLine site maxS f2 line st := by
  by_cases hs : pyStartsWith line "Sitemap:" = true
  · cases hg : (pySplit line ": ").get? 1 with
    | none =>
      rw [processRobotsLine_eq_err site maxS f1 st hs hg,
        processRobotsLine_eq_err site maxS f2 st hs hg]
    | some piece =>
      rw [processRobotsLine_eq_entry site maxS f1 st hs hg,
        processRobotsLine_eq_entry site maxS f2 st hs hg]
      by_cases hlt : st.count < maxS
      · rw [if_pos hlt, if_pos hlt,
          parseSitemap_fuel_congr site maxS f1 f2 (pyStrip piece)
            { st with count := st.count + 1,
                      visited := st.visited ++ [pyStrip piece] }
            (show maxS ≤ f1 + (st.count + 1) by omega)
            (show maxS ≤ f2 + (st.count + 1) by omega)]
      · rw [if_neg hlt, if_neg hlt]
  · rw [processRobotsLine_eq_skip site maxS f1 st hs,
      processRobotsLine_eq_skip site maxS f2 st hs]

/-- The robots loop computes the same result at any two fuels that cover
the whole budget. -/
theorem processLines_fuel_congr (site : Site) (maxS : Nat) {f1 f2 : Nat}
    (h1 : maxS ≤ f1) (h2 : maxS ≤ f2) :
    ∀ L st, processLines site maxS f1 L st = processLines site maxS f2 L st := by
  intro L
  induction L with
  | nil => intro st; rfl
  | cons line rest ihl =>
    intro st
    unfold processLines
    rw [processRobotsLine_fuel_congr site maxS h1 h2 line st]
    cases processRobotsLine site maxS f2 line st with
    | error e => rfl
    | ok st1 => exact ihl st1

/-- Any fuel at least `maxS` yields the canonical traversal result. -/
theorem searchSitemapsFuel_congr (site : Site) (maxS fuel : Nat)
    (h : maxS ≤ fuel) :
    searchSitemapsFuel site maxS fuel = searchSitemaps site maxS := by
  unfold searchSitemaps searchSitemapsFuel
  exact processLines_fuel_congr site maxS h (Nat.le_refl maxS) _ _

/-- The robots loop never raises when every `Sitemap:` line contains the
`": "` delimiter. -/
theorem processLines_ok_of_wellformed (site : Site) (maxS fuel : Nat) :
    ∀ L st,
      (∀ line ∈ L, pyStartsWith line "Sitemap:" = true →
        2 ≤ (pySplit line ": ").length) →
      ∃ st', processLines site maxS fuel L st = Except.ok st' := by
  intro L
  induction L with
  | nil => intro st _; exact ⟨st, rfl⟩
  | cons line rest ihl =>
    intro st hwf
    have hline : ∃ st1, processRobotsLine site maxS fuel line st = Except.ok st1 := by
      by_cases hs : pyStartsWith line "Sitemap:" = true
      · have hlen := hwf line (List.mem_cons_self _ _) hs
        cases hg : (pySplit line ": ").get? 1 with
        | none =>
          have := List.get?_eq_none.mp hg
          omega
        | some piece =>
          rw [processRobotsLine_eq_entry site maxS fuel st hs hg]
          by_cases hlt : st.count < maxS
          · rw [if_pos hlt]; exact ⟨_, rfl⟩
          · rw [if_neg hlt]; exact ⟨st, rfl⟩
      · rw [processRobotsLine_eq_skip site maxS fuel st hs]
        exact ⟨st, rfl⟩
    obtain ⟨st1, hst1⟩ := hline
    unfold processLines
    rw [hst1]
    exact ihl st1 (fun l hl => hwf l (List.mem_cons_of_mem _ hl))

/-! ## Claims -/

/-- C1. For every budget `B ≥ 1` and every declared link graph, a
traversal started with budget `B` performs at most `B` sitemap-document
fetch operations (the robots fetch excluded), and the visit counter
`sitemap_count` never exceeds `max_sitemaps` (the counter is monotone, so
its final value bounds every intermediate one). -/
theorem C1_budget_invariant (site : Site) (maxS : Nat) (st : CrawlState)
    (hB : 1 ≤ maxS) (hrun : searchSitemaps site maxS = Except.ok st) :
    st.fetched.length ≤ maxS ∧ st.count ≤ maxS := by
  unfold searchSitemaps searchSitemapsFuel at hrun
  have h0 : FetchInv maxS initState := ⟨Nat.le_refl 0, Nat.zero_le _, hB⟩
  have h := processLines_fetchInv site maxS maxS _ initState st hrun h0
  exact ⟨Nat.le_trans h.1 h.2.1, h.2.1⟩

/-- Witness for C1 at a concrete site and budget 2. -/
theorem C1_budget_invariant_witness :
    (⟨[("http://x/a.xml", ["http://x/b.xml", "http://x/p1"])], 2,
      ["http://x/a.xml", "http://x/b.xml"],
      ["http://x/a.xml"]⟩ : CrawlState).fetched.length ≤ 2 ∧
    (⟨[("http://x/a.xml", ["http://x/b.xml", "http://x/p1"])], 2,
      ["http://x/a.xml", "http://x/b.xml"],
      ["http://x/a.xml"]⟩ : CrawlState).count ≤ 2 :=
  C1_budget_invariant exSiteAB 2 _ (by omega) rfl

/-- C10. The number of sitemap documents actually fetched is at most
`B - 1`: the counter is incremented before each call to `_parse_sitemap`
and that call returns without fetching once the counter has reached the
budget, so the `B`-th incremented visit never performs its fetch. -/
theorem C10_fetches_below_budget (site : Site) (maxS : Nat) (st : CrawlState)
    (hB : 1 ≤ maxS) (hrun : searchSitemaps site maxS = Except.ok st) :
    st.fetched.length ≤ maxS - 1 := by
  unfold searchSitemaps searchSitemapsFuel at hrun
  have h0 : FetchInv maxS initState := ⟨Nat.le_refl 0, Nat.zero_le _, hB⟩
  obtain ⟨h1, h2, h3⟩ := processLines_fetchInv site maxS maxS _ initState st hrun h0
  omega

/-- Witness for C10 on the cyclic site with budget 3: exactly 2 fetches. -/
theorem C10_fetches_below_budget_witness :
    (⟨[("http://x/a.xml", ["http://x/a.xml"])], 3,
      ["http://x/a.xml", "http://x/a.xml", "http://x/a.xml"],
      ["http://x/a.xml", "http://x/a.xml"]⟩ : CrawlState).fetched.length ≤ 3 - 1 :=
  C10_fetches_below_budget exSiteCycle 3 _ (by omega) rfl

/-- C7. For every link graph, including cyclic ones, the traversal with
finite budget `B` terminates after at most `B` visits in total: the
embedding computes the same result under any recursion bound covering the
budget (every recursive descent consumes from the one shared counter, so
depth `B` of fuel is never exceeded), and the visit log of a completed
traversal has length at most `B`. -/
theorem C7_cycle_termination (site : Site) (maxS fuel : Nat)
    (hf : maxS ≤ fuel) :
    searchSitemapsFuel site maxS fuel = searchSitemaps site maxS ∧
    ∀ st, searchSitemaps site maxS = Except.ok st →
      st.visited.length ≤ maxS := by
  constructor
  · exact searchSitemapsFuel_congr site maxS fuel hf
  · intro st hrun
    unfold searchSitemaps searchSitemapsFuel at hrun
    have h := processLines_preserve site maxS maxS
      (fun s => s.visited.length = s.count ∧ s.count ≤ maxS)
      (fun s u h => h)
      (fun s l h hlt => ⟨by simp [List.length_append, h.1], Nat.succ_le_of_lt hlt⟩)
      (fun s m h => h)
      _ initState st hrun ⟨rfl, Nat.zero_le _⟩
    omega

/-- Witness for C7 on the cyclic site with budget 3 and surplus fuel. -/
theorem C7_cycle_termination_witness :
    searchSitemapsFuel exSiteCycle 3 10 = searchSitemaps exSiteCycle 3 ∧
    (⟨[("http://x/a.xml", ["http://x/a.xml"])], 3,
      ["http://x/a.xml", "http://x/a.xml", "http://x/a.xml"],
      ["http://x/a.xml", "http://x/a.xml"]⟩ : CrawlState).visited.length ≤ 3 :=
  ⟨(C7_cycle_termination exSiteCycle 3 10 (by omega)).1,
   (C7_cycle_termination exSiteCycle 3 10 (by omega)).2 _ rfl⟩

/-- C9. If the robots fetch fails, `traverseSite` returns the empty mapping —
not an error and not an exception: the content is treated as `""`, whose
single (empty) line declares no entry point. -/
theorem C9_robots_failure_empty (site : Site) (maxS : Nat)
    (h : site.robots = none) : traverseSite site maxS = Except.ok [] := by
  unfold traverseSite searchSitemaps searchSitemapsFuel
  rw [h]
  rfl

/-- Witness for C9 at a concrete site with a failing robots fetch. -/
theorem C9_robots_failure_empty_witness :
    exSiteNoRobots.robots = none ∧
    traverseSite exSiteNoRobots 7 = Except.ok [] :=
  ⟨rfl, C9_robots_failure_empty exSiteNoRobots 7 rfl⟩

/-- Visit log of a completed traversal (empty when the traversal aborts
with an exception). -/
def visitLog (site : Site) (maxS : Nat) : List String :=
  match searchSitemaps site maxS with
  | Except.ok st => st.visited
  | Except.error _ => []

/-- C4 counterexample. A robots content whose `Sitemap:` line lacks the
`": "` delimiter makes `line.split(": ")[1]` raise `IndexError`, which
propagates to the caller: the traversal does not complete normally. -/
theorem C4_uncaught_error_counterexample :
    traverseSite exSiteNoDelim 5 = Except.error "list index out of range" := rfl

/-- C4 amended. Provided every robots line beginning with `Sitemap:`
contains the `": "` delimiter, the traversal surfaces no error for any
robots content, any budget, and any outcome of every fetch: all fetch
failures degrade to empty content and the traversal completes normally. -/
theorem C4_no_error_when_delimited (site : Site) (maxS : Nat)
    (hwf : ∀ line ∈ splitLines ((site.robots).getD ""),
      pyStartsWith line "Sitemap:" = true → 2 ≤ (pySplit line ": ").length) :
    ∃ st, searchSitemaps site maxS = Except.ok st := by
  unfold searchSitemaps searchSitemapsFuel
  exact processLines_ok_of_wellformed site maxS maxS _ initState hwf

/-- Witness for the amended C4 on a well-formed robots file whose sitemap
fetches partly fail. -/
theorem C4_no_error_when_delimited_witness :
    (∀ line ∈ splitLines ((exSiteFail.robots).getD ""),
      pyStartsWith line "Sitemap:" = true → 2 ≤ (pySplit line ": ").length) ∧
    ∃ st, searchSitemaps exSiteFail 5 = Except.ok st :=
  ⟨by decide, C4_no_error_when_delimited exSiteFail 5 (by decide)⟩

/-- C2 counterexample. With budget 1 and robots declaring the single
entry point `a.xml`, the entry point is *not* fetched: the counter is
incremented to 1 before `_parse_sitemap` runs, whose guard
`sitemap_count >= max_sitemaps` then returns before the fetch, so the
fetch log of the whole traversal is empty. -/
theorem C2_budget_one_counterexample :
    "http://x/a.xml" ∉ fetchLog exSiteAB 1 ∧ fetchLog exSiteAB 1 = [] := by
  constructor
  · decide
  · decide

/-- C2 amended. With budget 1, the entry point `a.xml` consumes the
single budget unit but is never fetched: no sitemap document is fetched
at all, the result mapping is empty, and `b.xml` is neither visited nor
fetched. -/
theorem C2_budget_one_amended :
    searchSitemaps exSiteAB 1 =
      Except.ok ⟨[], 1, ["http://x/a.xml"], []⟩ := rfl

/-- C3 counterexample. A visited sitemap address whose fetch fails *does*
get an entry in the result mapping: the failed fetch degrades to empty
content, hence zero links, and `_parse_sitemap` still executes
`collected_data[sitemap_url] = DataFrame(found_urls)`, recording an
empty-link entry for that address. -/
theorem C3_failed_fetch_counterexample :
    exSiteFail.pages "http://x/a.xml" = none ∧
    "http://x/a.xml" ∈ fetchLog exSiteFail 10 ∧
    ("http://x/a.xml", []) ∈ resultMapping exSiteFail 10 :=
  ⟨rfl, by decide, by decide⟩

/-- C3 amended. For every visited sitemap address whose fetch fails (and
whose visit passes the budget guard), the branch terminates immediately —
no recursion happens — and the result mapping records that address with
an *empty* `declaredLinks` entry; all other fields and existing entries
are unaffected apart from the fetch log noting the attempt. -/
theorem C3_failed_fetch_records_empty (site : Site) (maxS fuel : Nat)
    (url : String) (st : CrawlState)
    (hfail : site.pages url = none) (hlt : st.count < maxS) :
    parseSitemap site maxS (fuel + 1) url st =
      { st with fetched := st.fetched ++ [url],
                collected := recordEntry st.collected url [] } := by
  rw [parseSitemap_succ, if_neg (Nat.not_le.mpr hlt)]
  have hreq : requestLocs site url = [] := by
    unfold requestLocs; rw [hfail]
  rw [hreq]
  rfl

/-- Witness for the amended C3 at a concrete failing fetch. -/
theorem C3_failed_fetch_records_empty_witness :
    exSiteFail.pages "http://x/a.xml" = none ∧
    initState.count < 10 ∧
    parseSitemap exSiteFail 10 (3 + 1) "http://x/a.xml" initState =
      { initState with fetched := initState.fetched ++ ["http://x/a.xml"],
                       collected := recordEntry initState.collected "http://x/a.xml" [] } :=
  ⟨rfl, by decide,
   C3_failed_fetch_records_empty exSiteFail 10 3 "http://x/a.xml" initState rfl (by decide)⟩

/-- C5 counterexample. The result mapping of the `a.xml → b.xml` example
lists the child `b.xml` *before* its parent `a.xml`: `_parse_sitemap`
runs the recursion loop first and only afterwards executes
`collected_data[sitemap_url] = …`, so a parent's entry never precedes the
entries of the children reached through it. -/
theorem C5_parent_first_counterexample :
    (resultMapping exSiteAB 5).map Prod.fst =
      ["http://x/b.xml", "http://x/a.xml"] ∧
    ((resultMapping exSiteAB 5).map Prod.fst).indexOf "http://x/b.xml" <
      ((resultMapping exSiteAB 5).map Prod.fst).indexOf "http://x/a.xml" := by
  constructor
  · decide
  · decide

/-- C5 amended. The entry `results[address] = declaredLinks` is recorded
only *after* all recursive visits of the child `.xml` links: when the
budget guard passes and the address is not already a key of the mapping
produced by the recursion loop, the parent's entry is appended at the
very end, after every entry added in its subtree. -/
theorem C5_record_after_children (site : Site) (maxS fuel : Nat)
    (url : String) (st : CrawlState) (hlt : st.count < maxS)
    (hfresh : url ∉ ((requestLocs site url).foldl (visitStep site maxS fuel)
      { st with fetched := st.fetched ++ [url] }).collected.map Prod.fst) :
    (parseSitemap site maxS (fuel + 1) url st).collected =
      ((requestLocs site url).foldl (visitStep site maxS fuel)
        { st with fetched := st.fetched ++ [url] }).collected ++
        [(url, requestLocs site url)] := by
  rw [parseSitemap_succ, if_neg (Nat.not_le.mpr hlt)]
  exact recordEntry_not_mem _ hfresh

/-- Witness for the amended C5: in the `a.xml → b.xml` example the
parent's entry is appended after the child's. -/
theorem C5_record_after_children_witness :
    (⟨[], 1, ["http://x/a.xml"], []⟩ : CrawlState).count < 5 ∧
    (parseSitemap exSiteAB 5 (3 + 1) "http://x/a.xml"
        ⟨[], 1, ["http://x/a.xml"], []⟩).collected =
      ((requestLocs exSiteAB "http://x/a.xml").foldl (visitStep exSiteAB 5 3)
        { (⟨[], 1, ["http://x/a.xml"], []⟩ : CrawlState) with
          fetched := (⟨[], 1, ["http://x/a.xml"], []⟩ : CrawlState).fetched ++
            ["http://x/a.xml"] }).collected ++
        [("http://x/a.xml", requestLocs exSiteAB "http://x/a.xml")] :=
  ⟨by decide,
   C5_record_after_children exSiteAB 5 3 "http://x/a.xml"
     ⟨[], 1, ["http://x/a.xml"], []⟩ (by decide) (by decide)⟩

/-- C6. Every entry of the result mapping of a completed traversal stores
exactly the location values extracted from the document at its key, in
document order — no reordering, no deduplication, no omission: the
recorded value is the unmodified output of `_extract_links` for that
address. -/
theorem C6_links_recorded_exactly (site : Site) (maxS : Nat)
    (st : CrawlState) (hrun : searchSitemaps site maxS = Except.ok st) :
    ∀ p ∈ st.collected, p.2 = requestLocs site p.1 := by
  unfold searchSitemaps searchSitemapsFuel at hrun
  exact processLines_entriesOk site maxS maxS _ initState st hrun
    (fun p hp => absurd hp (List.not_mem_nil p))

/-- Witness for C6 on the two-document example. -/
theorem C6_links_recorded_exactly_witness :
    ["http://x/b.xml", "http://x/p1"] =
      requestLocs exSiteAB "http://x/a.xml" :=
  C6_links_recorded_exactly exSiteAB 5
    ⟨[("http://x/b.xml", []),
      ("http://x/a.xml", ["http://x/b.xml", "http://x/p1"])], 2,
      ["http://x/a.xml", "http://x/b.xml"],
      ["http://x/a.xml", "http://x/b.xml"]⟩
    rfl ("http://x/a.xml", ["http://x/b.xml", "http://x/p1"]) (by decide)

/-- C8 counterexample. The link `"http://x/c.xml\n"` does not end with
the suffix `.xml`, yet it is visited and fetched as a sitemap: the guard
is `re.search(r"\.xml$", link)`, and in Python `$` also matches just
before a single final newline. -/
theorem C8_xml_suffix_counterexample :
    pyEndsWith "http://x/c.xml\n" ".xml" = false ∧
    "http://x/c.xml\n" ∈ visitLog exSiteNewline 5 ∧
    "http://x/c.xml\n" ∈ fetchLog exSiteNewline 5 := by
  refine ⟨by decide, by decide, by decide⟩

/-- C8 amended. A declared link of a visited document is recursively
visited iff it matches the pattern `\.xml$` — i.e. ends with `.xml`, or
with `.xml` followed by one final newline — and the counter is strictly
below the budget at the moment the link is considered: (1) every address
in the visit log of a completed traversal is a robots entry point
(visited with no pattern check) or matches the pattern; (2) whenever the
recursion loop reaches a matching link while the counter is below budget,
that link is visited. -/
theorem C8_visit_rule (site : Site) (maxS : Nat) :
    (∀ st, searchSitemaps site maxS = Except.ok st →
      ∀ u ∈ st.visited,
        u ∈ robotsEntries site ∨ matchesSitemapPattern u = true) ∧
    (∀ fuel (s : CrawlState) (l : String) (ls : List String),
      matchesSitemapPattern l = true → s.count < maxS →
      l ∈ ((l :: ls).foldl (visitStep site maxS fuel) s).visited) := by
  constructor
  · intro st hrun u hu
    unfold searchSitemaps searchSitemapsFuel at hrun
    rcases processLines_visited_from site maxS maxS _ initState st hrun
      (fun l hl => hl) u hu with h | h | h
    · exact absurd h (List.not_mem_nil u)
    · exact Or.inl h
    · exact Or.inr h
  · intro fuel s l ls hm hlt
    rw [List.foldl_cons]
    have hstep : visitStep site maxS fuel s l =
        parseSitemap site maxS fuel l
          { s with count := s.count + 1, visited := s.visited ++ [l] } := by
      unfold visitStep; rw [if_pos ⟨hm, hlt⟩]
    rw [hstep]
    refine @foldl_preserve CrawlState String (fun s' => l ∈ s'.visited)
      (visitStep site maxS fuel) ?_ ls _ ?_
    · intro s' a h
      unfold visitStep
      by_cases hc : matchesSitemapPattern a = true ∧ s'.count < maxS
      · rw [if_pos hc]
        exact parseSitemap_visited_mono site maxS fuel a _
          (List.mem_append_left _ h)
      · rw [if_neg hc]; exact h
    · exact parseSitemap_visited_mono site maxS fuel l _
        (List.mem_append_right _ (List.mem_singleton.mpr rfl))

/-- Witness for the amended C8: the newline-carrying visited link does
match the pattern, and a matching link below budget is visited by the
loop. -/
theorem C8_visit_rule_witness :
    ("http://x/c.xml\n" ∈ robotsEntries exSiteNewline ∨
      matchesSitemapPattern "http://x/c.xml\n" = true) ∧
    "http://x/b.xml" ∈
      ((["http://x/b.xml"] : List String).foldl
        (visitStep exSiteAB 5 2) initState).visited :=
  ⟨(C8_visit_rule exSiteNewline 5).1
      ⟨[("http://x/c.xml\n", []), ("http://x/a.xml", ["http://x/c.xml\n"])], 2,
        ["http://x/a.xml", "http://x/c.xml\n"],
        ["http://x/a.xml", "http://x/c.xml\n"]⟩
      rfl "http://x/c.xml\n" (by decide),
   (C8_visit_rule exSiteAB 5).2 2 initState "http://x/b.xml" []
      (by decide) (by decide)⟩
